import Mathlib

/-!
Verification development for the DXF laser-cutting quote core
(`client/src/lib/pricing.js` and its sibling modules): the pricing
engine `calculatePrice`, the geometry extractor `parseDxf` with its
per-entity normalizers, and the unit/numeric normalizer
(`parseFractionalInput`, `toCanonical`, `fromCanonical`).

Modelling conventions:
* JavaScript numbers are modelled exactly by `JsNum`: a rational, `NaN`,
  or a signed infinity.  Floating-point rounding is idealised away (all
  quantities in scope are exact in ℚ); `NaN`/`±Infinity` propagation,
  JS truthiness (`0`, `NaN` falsy) and NaN-comparison semantics are
  modelled faithfully.
* A possibly-`null`/`undefined` object or field is an `Option`.
* Geometry (which needs `π` and square roots) is modelled over ℝ, where
  no `NaN`/`Infinity` exists; coordinates are modelled as present real
  numbers.  The `minX = Infinity` sentinel of the bounds accumulator is
  modelled by an `Option` state that is `none` until the first point.
* JS strings are modelled by `String`, manipulated through their
  character lists.
-/

/-- A JavaScript number: `NaN`, `±Infinity`, or a finite value
(idealised as an exact rational). -/
inductive JsNum where
  | nan : JsNum
  | inf : JsNum
  | ninf : JsNum
  | num (q : ℚ) : JsNum
deriving DecidableEq, Repr

namespace JsNum

/-- JS addition: `NaN` propagates; `Infinity + -Infinity = NaN`. -/
def jadd : JsNum → JsNum → JsNum
  | nan, _ => nan
  | _, nan => nan
  | inf, ninf => nan
  | ninf, inf => nan
  | inf, _ => inf
  | _, inf => inf
  | ninf, _ => ninf
  | _, ninf => ninf
  | num a, num b => num (a + b)

/-- JS multiplication: `NaN` propagates; `±Infinity * 0 = NaN`; otherwise
infinities combine by sign. -/
def jmul : JsNum → JsNum → JsNum
  | nan, _ => nan
  | _, nan => nan
  | inf, inf => inf
  | inf, ninf => ninf
  | ninf, inf => ninf
  | ninf, ninf => inf
  | inf, num b => if 0 < b then inf else if b < 0 then ninf else nan
  | num a, inf => if 0 < a then inf else if a < 0 then ninf else nan
  | ninf, num b => if 0 < b then ninf else if b < 0 then inf else nan
  | num a, ninf => if 0 < a then ninf else if a < 0 then inf else nan
  | num a, num b => num (a * b)

/-- JS division: `NaN` propagates; `∞/∞ = NaN`; finite divided by `±∞`
is `0`; a nonzero finite value divided by `0` is a signed infinity and
`0/0 = NaN` (there is no signed zero in this model). -/
def jdiv : JsNum → JsNum → JsNum
  | nan, _ => nan
  | _, nan => nan
  | inf, inf => nan
  | inf, ninf => nan
  | ninf, inf => nan
  | ninf, ninf => nan
  | inf, num b => if b < 0 then ninf else inf
  | ninf, num b => if b < 0 then inf else ninf
  | num _, inf => num 0
  | num _, ninf => num 0
  | num a, num b =>
      if b = 0 then (if a = 0 then nan else if 0 < a then inf else ninf)
      else num (a / b)

/-- JS `<` as a boolean: any comparison involving `NaN` is `false`. -/
def jlt : JsNum → JsNum → Bool
  | nan, _ => false
  | _, nan => false
  | inf, _ => false
  | _, inf => true
  | ninf, ninf => false
  | ninf, _ => true
  | _, ninf => false
  | num a, num b => a < b

/-- JS `>` as a boolean (`a > b` iff `b < a`; `NaN` compares `false`). -/
def jgt (a b : JsNum) : Bool := jlt b a

/-- JS `Math.max`: `NaN` if either argument is `NaN`, else the larger
(`if a < b then b else a`, which agrees with `max`). -/
def jmax : JsNum → JsNum → JsNum
  | nan, _ => nan
  | _, nan => nan
  | inf, _ => inf
  | _, inf => inf
  | ninf, b => b
  | a, ninf => a
  | num a, num b => num (if a < b then b else a)

/-- JS truthiness of a number: `NaN` and `0` are falsy. -/
def jtruthy : JsNum → Bool
  | nan => false
  | num q => q != 0
  | _ => true

end JsNum

open JsNum

/-! ## Pricing engine (`calculatePrice`, pricing.js lines 9–84) -/

/-- The `metrics` argument of `calculatePrice`:
`{ width, height, totalLength, area }`. -/
structure JsMetrics where
  width : JsNum
  height : JsNum
  totalLength : JsNum
  area : JsNum
deriving DecidableEq, Repr

/-- The `pricingEntry` argument of `calculatePrice`:
`{ costPerArea, costPerTime, cutSpeed }`. -/
structure JsPricingEntry where
  costPerArea : JsNum
  costPerTime : JsNum
  cutSpeed : JsNum
deriving DecidableEq, Repr

/-- The `settings` argument of `calculatePrice`.  A field that is absent
or `undefined` is `none`; the destructuring defaults
`markup = 0, minCharge = 0, currency = 'USD'` then apply. -/
structure JsSettings where
  markup : Option JsNum
  minCharge : Option JsNum
  currency : Option String
deriving DecidableEq, Repr

/-- The `details` sub-object of a price breakdown. -/
structure BreakdownDetails where
  area : JsNum
  cutLength : JsNum
  cutTimeMinutes : JsNum
  cutSpeed : JsNum
  costPerArea : JsNum
  costPerTime : JsNum
deriving DecidableEq, Repr

/-- The price breakdown returned by `calculatePrice`. -/
structure PriceBreakdown where
  areaCost : JsNum
  timeCost : JsNum
  subtotal : JsNum
  markupPercent : JsNum
  markupAmount : JsNum
  withMarkup : JsNum
  finalPrice : JsNum
  minChargeApplied : Bool
  minCharge : JsNum
  currency : String
  details : BreakdownDetails
deriving DecidableEq, Repr

/-- `createEmptyBreakdown(currency = 'USD')` (pricing.js lines 63–84):
every numeric field is `0`, `minChargeApplied` is `false`. -/
def createEmptyBreakdown (currency : String) : PriceBreakdown :=
  ⟨num 0, num 0, num 0, num 0, num 0, num 0, num 0, false, num 0, currency,
    ⟨num 0, num 0, num 0, num 0, num 0, num 0⟩⟩

/-- The currency used by the early-return branch of `calculatePrice`:
`settings?.currency || 'USD'` (an absent settings object, an absent
field, or a falsy (empty) string all yield `'USD'`). -/
def fallbackCurrency : Option JsSettings → String
  | none => "USD"
  | some s =>
    match s.currency with
    | none => "USD"
    | some c => if c = "" then "USD" else c

/-- `calculatePrice(metrics, pricingEntry, settings)`
(pricing.js lines 9–58).  A missing (`null`/`undefined`) argument is
`none` and triggers the empty-breakdown early return.  Numeric fields of
`metrics`/`pricingEntry` have no destructuring defaults, so a JS
`undefined` field behaves exactly like `NaN` in every operation below
(falsy, arithmetic gives `NaN`, comparisons give `false`); such a field
is therefore modelled as `JsNum.nan`. -/
def calculatePrice (metrics : Option JsMetrics) (pricingEntry : Option JsPricingEntry)
    (settings : Option JsSettings) : PriceBreakdown :=
  match metrics, pricingEntry, settings with
  | some m, some p, some s =>
    let markup := s.markup.getD (num 0)
    let minCharge := s.minCharge.getD (num 0)
    let currency := s.currency.getD "USD"
    let effectiveArea := if jtruthy m.area then m.area else jmul m.width m.height
    let areaCost := jmul effectiveArea p.costPerArea
    let cutTimeMinutes :=
      if jgt p.cutSpeed (num 0) then jdiv m.totalLength p.cutSpeed else num 0
    let cutTimeHours := jdiv cutTimeMinutes (num 60)
    let timeCost := jmul cutTimeHours p.costPerTime
    let subtotal := jadd areaCost timeCost
    let markupAmount := jmul subtotal (jdiv markup (num 100))
    let withMarkup := jadd subtotal markupAmount
    let finalPrice := jmax withMarkup minCharge
    ⟨areaCost, timeCost, subtotal, markup, markupAmount, withMarkup, finalPrice,
      jlt withMarkup minCharge, minCharge, currency,
      ⟨effectiveArea, m.totalLength, cutTimeMinutes, p.cutSpeed, p.costPerArea,
        p.costPerTime⟩⟩
  | _, _, _ => createEmptyBreakdown (fallbackCurrency settings)

/-! ## Unit/numeric normalizer (`parseFractionalInput`, `toCanonical`,
`fromCanonical`; units module lines 529–662) -/

/-- The whitespace class used by JS `String.trim` and the regex class
`\s` (restricted to its ASCII members, the only ones in scope). -/
def jsIsSpace (c : Char) : Bool :=
  c = ' ' || c = '\t' || c = '\n' || c = '\r' || c = '\x0b' || c = '\x0c'

/-- The regex character class `[-\s]` of the mixed-number separator. -/
def isSepChar (c : Char) : Bool := c = '-' || jsIsSpace c

/-- `parseInt(s, 10)` on a string of decimal digits. -/
def digitsToNat (l : List Char) : ℕ :=
  l.foldl (fun a c => 10 * a + (c.toNat - '0'.toNat)) 0

/-- JS `String.prototype.trim`: drop leading and trailing whitespace. -/
def jsTrim (s : List Char) : List Char :=
  ((s.dropWhile jsIsSpace).reverse.dropWhile jsIsSpace).reverse

/-- The regex `/^(\d+)[-\s]+(\d+)\/(\d+)$/` of the mixed-number form,
returning the three captured groups as numbers.  Greedy maximal-munch
runs are equivalent to the backtracking regex here because the adjacent
character classes (`\d` vs `[-\s]`, `\d` vs `/`) are disjoint. -/
def matchMixed (s : List Char) : Option (ℕ × ℕ × ℕ) :=
  let w := s.takeWhile Char.isDigit
  let r1 := s.dropWhile Char.isDigit
  let sep := r1.takeWhile isSepChar
  let r2 := r1.dropWhile isSepChar
  let n := r2.takeWhile Char.isDigit
  let r3 := r2.dropWhile Char.isDigit
  if w = [] ∨ sep = [] ∨ n = [] then none
  else
    match r3 with
    | '/' :: r4 =>
      let d := r4.takeWhile Char.isDigit
      let r5 := r4.dropWhile Char.isDigit
      if d = [] ∨ r5 ≠ [] then none
      else some (digitsToNat w, digitsToNat n, digitsToNat d)
    | _ => none

/-- The regex `/^(\d+)\/(\d+)$/` of the simple-fraction form. -/
def matchFraction (s : List Char) : Option (ℕ × ℕ) :=
  let n := s.takeWhile Char.isDigit
  let r1 := s.dropWhile Char.isDigit
  if n = [] then none
  else
    match r1 with
    | '/' :: r2 =>
      let d := r2.takeWhile Char.isDigit
      let r3 := r2.dropWhile Char.isDigit
      if d = [] ∨ r3 ≠ [] then none
      else some (digitsToNat n, digitsToNat d)
    | _ => none

/-- JS `parseFloat`: longest valid decimal prefix (optional sign,
digits with an optional fractional part or a bare fractional part, an
optional well-formed exponent, or the literal word `Infinity`); `NaN`
when no prefix parses. -/
def jsParseFloat (s : List Char) : JsNum :=
  let s1 := s.dropWhile jsIsSpace
  let sign : ℚ := match s1.head? with | some '-' => -1 | _ => 1
  let s2 := match s1.head? with
    | some '-' => s1.tail
    | some '+' => s1.tail
    | _ => s1
  if s2.take 8 = "Infinity".data then (if sign = 1 then inf else ninf)
  else
    let ip := s2.takeWhile Char.isDigit
    let r1 := s2.dropWhile Char.isDigit
    let fp : List Char :=
      match r1 with
      | '.' :: t => t.takeWhile Char.isDigit
      | _ => []
    let r2 : List Char :=
      match r1 with
      | '.' :: t => t.dropWhile Char.isDigit
      | _ => r1
    if ip = [] ∧ fp = [] then nan
    else
      let mant : ℚ := digitsToNat ip + (digitsToNat fp : ℚ) / 10 ^ fp.length
      let e : ℤ :=
        match r2 with
        | c :: t =>
          if c = 'e' ∨ c = 'E' then
            let esign : ℤ := match t.head? with | some '-' => -1 | _ => 1
            let t2 := match t.head? with
              | some '-' => t.tail
              | some '+' => t.tail
              | _ => t
            let ed := t2.takeWhile Char.isDigit
            if ed = [] then 0 else esign * (digitsToNat ed : ℤ)
          else 0
        | [] => 0
      num (sign * mant * (10 : ℚ) ^ e)

/-- A JS value given to the numeric-input functions: a number, a
string, or anything else (`null`, `undefined`, booleans, objects). -/
inductive JsInput where
  | num (v : JsNum) : JsInput
  | str (s : String) : JsInput
  | other : JsInput
deriving DecidableEq, Repr

/-- `parseFractionalInput(input)` (units module lines 563–594): numbers
pass through; non-strings are `NaN`; strings are trimmed and matched as
a mixed number, then a simple fraction (denominator `0` invalid), any
other string containing `/` is `NaN`, and anything else falls through
to `parseFloat`. -/
def parseFractionalInput : JsInput → JsNum
  | .num v => v
  | .other => nan
  | .str s =>
    let t := jsTrim s.data
    if t = [] then nan
    else
      match matchMixed t with
      | some (w, n, d) =>
        if d = 0 then nan else num ((w : ℚ) + (n : ℚ) / (d : ℚ))
      | none =>
        match matchFraction t with
        | some (n, d) =>
          if d = 0 then nan else num ((n : ℚ) / (d : ℚ))
        | none => if t.contains '/' then nan else jsParseFloat t

/-- The supported unit vocabulary (`UNITS`, units module lines 529–542). -/
def supportedUnits : List String := ["mm", "in", "mm2", "in2", "mm_min", "in_min"]

/-- `toCanonical(value, unit)` (units module lines 603–630): `''`,
`null` and `undefined` give `0` (any other non-number non-string parses
to `NaN` and also gives `0`, so all of `JsInput.other` maps to `0`);
a value whose fractional parse is `NaN` gives `0`; otherwise the parsed
number is converted by the unit switch (length/speed multiply by 25.4,
cost-per-area divides by 645.16, metric and unknown tags pass through). -/
def toCanonical (value : JsInput) (unit : String) : JsNum :=
  match value with
  | .str "" => num 0
  | .other => num 0
  | v =>
    match parseFractionalInput v with
    | nan => num 0
    | n =>
      if unit = "in" then jmul n (num (254 / 10))
      else if unit = "mm" then n
      else if unit = "in2" then jdiv n (num (64516 / 100))
      else if unit = "mm2" then n
      else if unit = "in_min" then jmul n (num (254 / 10))
      else if unit = "mm_min" then n
      else n

/-- `fromCanonical(canonicalValue, targetUnit)` (units module lines
639–662).  The JS guard returning `0` for `''`/`null`/`undefined` never
fires on the numeric domain modelled here (a stored canonical value is
a number); the unit switch inverts `toCanonical`'s factors. -/
def fromCanonical (canonicalValue : JsNum) (targetUnit : String) : JsNum :=
  if targetUnit = "in" then jdiv canonicalValue (num (254 / 10))
  else if targetUnit = "mm" then canonicalValue
  else if targetUnit = "in2" then jmul canonicalValue (num (64516 / 100))
  else if targetUnit = "mm2" then canonicalValue
  else if targetUnit = "in_min" then jdiv canonicalValue (num (254 / 10))
  else if targetUnit = "mm_min" then canonicalValue
  else canonicalValue


/-! ## Geometry extractor (`parseDxf` and the per-entity normalizers,
dxf module lines 112–310).  Coordinates, lengths and angles are real
numbers; JS `NaN`/`Infinity` coordinate pathologies are outside this
model, and the `minX = Infinity` bounds sentinel is an `Option` that is
`none` until the first point. -/

noncomputable section

/-- A 2D point `{x, y}`. -/
structure Pt where
  x : ℝ
  y : ℝ

instance : Inhabited Pt := ⟨⟨0, 0⟩⟩

/-- `distance(p1, p2)` (dxf module lines 306–310):
`sqrt(dx*dx + dy*dy)`. -/
def distance (p1 p2 : Pt) : ℝ :=
  Real.sqrt ((p2.x - p1.x) * (p2.x - p1.x) + (p2.y - p1.y) * (p2.y - p1.y))

/-- JS `v || d` on a present number: `0` is falsy (no `NaN` exists in
the real-valued model). -/
def jsOrReal (v d : ℝ) : ℝ := if v = 0 then d else v

/-- JS `v || d` on a possibly-`undefined` number. -/
def jsOrOpt (v : Option ℝ) (d : ℝ) : ℝ :=
  match v with
  | none => d
  | some x => jsOrReal x d

/-- A raw DXF entity record as handed over by the external parser: a
type tag and the per-type optional fields the normalizers read.  The
`shape` flag of a polyline is its closed mark (JS reads it with plain
truthiness, so an absent flag is `false`). -/
structure RawEntity where
  type : String
  vertices : Option (List Pt)
  startPoint : Option Pt
  endPoint : Option Pt
  center : Option Pt
  radius : Option ℝ
  startAngle : Option ℝ
  endAngle : Option ℝ
  shape : Bool
  controlPoints : Option (List Pt)

/-- A normalized entity: type tag, polyline approximation, path length,
and the type-specific extras (`center`/`radius` for circles and arcs,
raw degree angles for arcs, `closed` for polylines; fields a type does
not carry are `none`/`false`). -/
structure ProcessedEntity where
  type : String
  points : List Pt
  length : ℝ
  center : Option Pt
  radius : Option ℝ
  startAngle : Option ℝ
  endAngle : Option ℝ
  closed : Bool

/-- `processLine` (dxf module lines 191–201): endpoints are
`vertices?.[0] || startPoint || {x:0,y:0}` and
`vertices?.[1] || endPoint || {x:0,y:0}` (a present point object is
always truthy). -/
def processLine (entity : RawEntity) : ProcessedEntity :=
  let start := (entity.vertices.bind fun l => l.get? 0).getD (entity.startPoint.getD ⟨0, 0⟩)
  let finish := (entity.vertices.bind fun l => l.get? 1).getD (entity.endPoint.getD ⟨0, 0⟩)
  ⟨"LINE", [start, finish], distance start finish, none, none, none, none, false⟩

/-- `processCircle` (dxf module lines 203–226): length is the exact
circumference `2πr`; 65 sample points (`segments = 64`, loop bounds
`0 ≤ i ≤ 64`) approximate the boundary. -/
def processCircle (entity : RawEntity) : ProcessedEntity :=
  let center := entity.center.getD ⟨0, 0⟩
  let radius := jsOrOpt entity.radius 0
  let circumference := 2 * Real.pi * radius
  let points := (List.range 65).map fun (i : ℕ) =>
    let angle := ((i : ℝ) / 64) * (2 * Real.pi)
    (⟨center.x + radius * Real.cos angle, center.y + radius * Real.sin angle⟩ : Pt)
  ⟨"CIRCLE", points, circumference, some center, some radius, none, none, false⟩

/-- `processArc` (dxf module lines 228–259): angles converted from
degrees (`startAngle || 0`, `endAngle || 360` — so an `endAngle` of `0`
is replaced by `360`), sweep `endAngle - startAngle` with `2π` added
once if negative, length `radius * sweep`; the sample count grows with
the sweep, at least 16 segments. -/
def processArc (entity : RawEntity) : ProcessedEntity :=
  let center := entity.center.getD ⟨0, 0⟩
  let radius := jsOrOpt entity.radius 0
  let startAngle := jsOrOpt entity.startAngle 0 * (Real.pi / 180)
  let endAngle := jsOrOpt entity.endAngle 360 * (Real.pi / 180)
  let angleDiff0 := endAngle - startAngle
  let angleDiff := if angleDiff0 < 0 then angleDiff0 + 2 * Real.pi else angleDiff0
  let arcLength := radius * angleDiff
  let segments : ℕ := max 16 (⌈angleDiff / (Real.pi / 32)⌉.toNat)
  let points := (List.range (segments + 1)).map fun (i : ℕ) =>
    let angle := startAngle + ((i : ℝ) / (segments : ℝ)) * angleDiff
    (⟨center.x + radius * Real.cos angle, center.y + radius * Real.sin angle⟩ : Pt)
  ⟨"ARC", points, arcLength, some center, some radius, entity.startAngle,
    entity.endAngle, false⟩

/-- The polyline length loop (`for i = 1; i < points.length; i++`
accumulating `distance(points[i-1], points[i])`). -/
def pathLength : List Pt → ℝ
  | p :: q :: rest => distance p q + pathLength (q :: rest)
  | _ => 0

/-- `processPolyline` (dxf module lines 261–285): fewer than 2 vertices
are discarded; points are the vertices (`v.x || 0`, `v.y || 0`); when
the `shape` flag marks the polyline closed, the closing distance is
added and a copy of the first point is appended. -/
def processPolyline (entity : RawEntity) : Option ProcessedEntity :=
  let vertices := entity.vertices.getD []
  if vertices.length < 2 then none
  else
    let points := vertices.map fun v => (⟨jsOrReal v.x 0, jsOrReal v.y 0⟩ : Pt)
    let length := pathLength points
    if entity.shape then
      some ⟨"POLYLINE", points ++ [points.headI],
        length + distance (points.getLast?.getD ⟨0, 0⟩) points.headI,
        none, none, none, none, true⟩
    else
      some ⟨"POLYLINE", points, length, none, none, none, none, false⟩

/-- `processSpline` (dxf module lines 287–304): approximated as the
polyline through its control points; fewer than 2 control points are
discarded. -/
def processSpline (entity : RawEntity) : Option ProcessedEntity :=
  let controlPoints := entity.controlPoints.getD []
  if controlPoints.length < 2 then none
  else
    let points := controlPoints.map fun p => (⟨jsOrReal p.x 0, jsOrReal p.y 0⟩ : Pt)
    some ⟨"SPLINE", points, pathLength points, none, none, none, none, false⟩

/-- `processEntity` (dxf module lines 173–189): dispatch on the type
tag; unrecognized types yield `null`. -/
def processEntity (entity : RawEntity) : Option ProcessedEntity :=
  if entity.type = "LINE" then some (processLine entity)
  else if entity.type = "CIRCLE" then some (processCircle entity)
  else if entity.type = "ARC" then some (processArc entity)
  else if entity.type = "POLYLINE" ∨ entity.type = "LWPOLYLINE" then processPolyline entity
  else if entity.type = "SPLINE" then processSpline entity
  else none

/-- The aggregate bounding box `{minX, minY, maxX, maxY}`. -/
structure Bounds where
  minX : ℝ
  minY : ℝ
  maxX : ℝ
  maxY : ℝ

/-- One `Math.min`/`Math.max` bounds update per point.  The source
starts from `±Infinity` sentinels; over finite points that is exactly a
`none` state that the first point replaces wholesale. -/
def updateBounds : Option Bounds → Pt → Option Bounds
  | none, p => some ⟨p.x, p.y, p.x, p.y⟩
  | some b, p => some ⟨min b.minX p.x, min b.minY p.y, max b.maxX p.x, max b.maxY p.y⟩

/-- The aggregate metrics of a parse
(`{width, height, totalLength, area, bounds, entityCount}`). -/
structure DxfMetrics where
  width : ℝ
  height : ℝ
  totalLength : ℝ
  area : ℝ
  bounds : Bounds
  entityCount : ℕ

/-- One iteration of the entity loop (dxf module lines 132–146): a
skipped entity (`processed` null) leaves the accumulator untouched;
otherwise the entity is collected, `totalLength += processed.length || 0`,
and every point updates the bounds. -/
def dxfStep (acc : List ProcessedEntity × ℝ × Option Bounds) (entity : RawEntity) :
    List ProcessedEntity × ℝ × Option Bounds :=
  match processEntity entity with
  | none => acc
  | some p =>
    match acc with
    | (es, total, b) => (es ++ [p], total + jsOrReal p.length 0, p.points.foldl updateBounds b)

/-- The entity loop plus the zero-entity bounds collapse and the final
metrics (dxf module lines 126–167): if no point was seen the bounds
default to all zeros; `width = maxX - minX`, `height = maxY - minY`,
`area = width * height`, `entityCount` the number of kept entities. -/
def parseDxfEntities (entities : List RawEntity) : List ProcessedEntity × DxfMetrics :=
  let acc := entities.foldl dxfStep ([], 0, none)
  let b := acc.2.2.getD ⟨0, 0, 0, 0⟩
  let width := b.maxX - b.minX
  let height := b.maxY - b.minY
  (acc.1, ⟨width, height, acc.2.1, width * height, b, acc.1.length⟩)

/-- The document the external `DxfParser#parseSync` produced: its
entity table may be absent. -/
structure DxfDoc where
  entities : Option (List RawEntity)

/-- The outcome of the external `parseSync` call on the raw CAD text:
it either threw (the text cannot be parsed) or returned a possibly-null
document. -/
inductive ParseOutcome where
  | parseError (msg : String) : ParseOutcome
  | parsed (doc : Option DxfDoc) : ParseOutcome

/-- A successful parse result `{entities, metrics, raw}`. -/
structure ParsedDxf where
  entities : List ProcessedEntity
  metrics : DxfMetrics
  raw : DxfDoc

/-- `parseDxf` (dxf module lines 112–168) as a function of the external
parser's outcome: a parser throw is rethrown as
`Failed to parse DXF: …`; a null document or an absent entity table is
`No entities found in DXF file`; otherwise the entity loop runs. -/
def parseDxf : ParseOutcome → Except String ParsedDxf
  | .parseError msg => .error ("Failed to parse DXF: " ++ msg)
  | .parsed none => .error "No entities found in DXF file"
  | .parsed (some doc) =>
    match doc.entities with
    | none => .error "No entities found in DXF file"
    | some entities =>
      let r := parseDxfEntities entities
      .ok ⟨r.1, r.2, doc⟩

end


/-! ## Concrete inputs used by the claim theorems -/

/-- The metrics of the spec pricing scenario:
`{width:100, height:50, totalLength:300, area:5000}`. -/
def scenarioMetrics : JsMetrics := ⟨num 100, num 50, num 300, num 5000⟩

/-- The pricing entry of the spec scenario:
`{costPerArea:0.0001, costPerTime:50, cutSpeed:3000}`. -/
def scenarioPricing : JsPricingEntry := ⟨num (1 / 10000), num 50, num 3000⟩

/-- The settings of the spec scenario:
`{markup:15, minCharge:25, currency:"USD"}`. -/
def scenarioSettings : JsSettings := ⟨some (num 15), some (num 25), some "USD"⟩

noncomputable section

/-- A raw LINE entity carrying a vertex pair. -/
def lineEntV (p q : Pt) : RawEntity :=
  ⟨"LINE", some [p, q], none, none, none, none, none, none, false, none⟩

/-- A raw LINE entity carrying `startPoint`/`endPoint`. -/
def lineEntSE (p q : Pt) : RawEntity :=
  ⟨"LINE", none, some p, some q, none, none, none, none, false, none⟩

/-- A raw CIRCLE entity with a center and radius. -/
def circleEnt (c : Pt) (r : ℝ) : RawEntity :=
  ⟨"CIRCLE", none, none, none, some c, some r, none, none, false, none⟩

/-- A raw ARC entity with center, radius and degree angles. -/
def arcEnt (c : Pt) (r sa ea : ℝ) : RawEntity :=
  ⟨"ARC", none, none, none, some c, some r, some sa, some ea, false, none⟩

/-- A raw POLYLINE entity with a vertex list and closed flag. -/
def polyEnt (vs : List Pt) (closed : Bool) : RawEntity :=
  ⟨"POLYLINE", some vs, none, none, none, none, none, none, closed, none⟩

/-- A raw entity of a type the extractor does not recognize. -/
def textEnt : RawEntity :=
  ⟨"TEXT", none, none, none, none, none, none, none, false, none⟩

/-- The arc sweep of the amended arc-length claim: degree angles with
an `endAngle` of `0` standing for `360`, the difference getting one
`2π` turn added when negative. -/
def arcSweep (sa ea : ℝ) : ℝ :=
  let a := sa * (Real.pi / 180)
  let b := (if ea = 0 then (360 : ℝ) else ea) * (Real.pi / 180)
  if b - a < 0 then b - a + 2 * Real.pi else b - a

/-- The polyline vertices of the spec scenario: `[(0,0),(10,0),(10,10)]`. -/
def samplePolyVertices : List Pt := [⟨0, 0⟩, ⟨10, 0⟩, ⟨10, 10⟩]

end

/-! ## Helper lemmas -/

/-! Evaluation lemmas for the JS-number operations on finite values. -/

theorem jadd_num (a b : ℚ) : jadd (num a) (num b) = num (a + b) := rfl

theorem jmul_num (a b : ℚ) : jmul (num a) (num b) = num (a * b) := rfl

theorem jdiv_num (a b : ℚ) (h : b ≠ 0) : jdiv (num a) (num b) = num (a / b) := by
  simp [jdiv, h]

theorem jlt_num (a b : ℚ) : jlt (num a) (num b) = decide (a < b) := rfl

theorem jgt_num (a b : ℚ) : jgt (num a) (num b) = decide (b < a) := rfl

theorem jmax_num (a b : ℚ) : jmax (num a) (num b) = num (max a b) := by
  rcases lt_trichotomy a b with h | h | h <;>
    simp [jmax, h, max_eq_left, max_eq_right, le_of_lt, le_of_eq, h.le]

theorem jtruthy_num (q : ℚ) : jtruthy (num q) = decide (q ≠ 0) := by
  by_cases h : q = 0 <;> simp [jtruthy, h]

example :
    (calculatePrice (some ⟨num 100, num 50, num 300, num 5000⟩)
      (some ⟨num (1/10000), num 50, num 3000⟩)
      (some ⟨some (num 15), some (num 25), some "USD"⟩)).finalPrice = num 25 := by
  norm_num [calculatePrice, jadd_num, jmul_num, jdiv_num, jgt_num, jlt_num, jmax_num,
    jtruthy_num]


/-! ## Claim theorems: pricing engine -/

/-- C1: for every non-null metrics, pricingEntry and settings with
finite numeric fields, `calculatePrice` computes, in order,
`areaCost = effectiveArea * costPerArea`,
`cutTimeMinutes = totalLength / cutSpeed` when `cutSpeed > 0` and `0`
otherwise, `timeCost = (cutTimeMinutes / 60) * costPerTime`,
`subtotal = areaCost + timeCost`, `markupAmount = subtotal * (markup/100)`,
`withMarkup = subtotal + markupAmount`,
`finalPrice = max(withMarkup, minCharge)` and
`minChargeApplied = (withMarkup < minCharge)`; on the spec scenario it
returns `areaCost = 0.5`, `cutTimeMinutes = 0.1`,
`minChargeApplied = true`, `finalPrice = 25`. -/
theorem calculatePrice_breakdown_formulas :
    (∀ (w h tl a cpa cpt cs mk mc : ℚ) (cur : String),
      let r := calculatePrice (some ⟨num w, num h, num tl, num a⟩)
        (some ⟨num cpa, num cpt, num cs⟩)
        (some ⟨some (num mk), some (num mc), some cur⟩)
      let ea : ℚ := if a ≠ 0 then a else w * h
      let ctm : ℚ := if 0 < cs then tl / cs else 0
      let sub : ℚ := ea * cpa + ctm / 60 * cpt
      let wm : ℚ := sub + sub * (mk / 100)
      r.areaCost = num (ea * cpa) ∧
      r.details.cutTimeMinutes = num ctm ∧
      r.timeCost = num (ctm / 60 * cpt) ∧
      r.subtotal = num sub ∧
      r.markupAmount = num (sub * (mk / 100)) ∧
      r.withMarkup = num wm ∧
      r.finalPrice = num (max wm mc) ∧
      r.minChargeApplied = decide (wm < mc)) ∧
    ((calculatePrice (some scenarioMetrics) (some scenarioPricing)
        (some scenarioSettings)).areaCost = num (1 / 2) ∧
      (calculatePrice (some scenarioMetrics) (some scenarioPricing)
        (some scenarioSettings)).details.cutTimeMinutes = num (1 / 10) ∧
      (calculatePrice (some scenarioMetrics) (some scenarioPricing)
        (some scenarioSettings)).minChargeApplied = true ∧
      (calculatePrice (some scenarioMetrics) (some scenarioPricing)
        (some scenarioSettings)).finalPrice = num 25) := by
  constructor
  · intro w h tl a cpa cpt cs mk mc cur
    by_cases ha : a = 0 <;> by_cases hcs : 0 < cs
    all_goals
      first
      | simp [calculatePrice, jtruthy_num, jadd_num, jmul_num, jgt_num, jlt_num,
          jmax_num, ha, hcs, jdiv_num, ne_of_gt hcs, max_comm]
      | simp [calculatePrice, jtruthy_num, jadd_num, jmul_num, jgt_num, jlt_num,
          jmax_num, ha, hcs, jdiv_num, max_comm]
  · norm_num [calculatePrice, scenarioMetrics, scenarioPricing, scenarioSettings,
      jtruthy_num, jadd_num, jmul_num, jgt_num, jlt_num, jmax_num, jdiv_num]

/-- C3 counterexample: with every argument present but `costPerArea`
equal to `NaN`, `calculatePrice` does not degrade to the empty all-zeros
breakdown — `NaN` reaches `finalPrice` — refuting the claim's second
half at this concrete input. -/
theorem calculatePrice_nan_propagates :
    (calculatePrice (some scenarioMetrics) (some ⟨nan, num 50, num 3000⟩)
        (some scenarioSettings)).finalPrice = nan ∧
      calculatePrice (some scenarioMetrics) (some ⟨nan, num 50, num 3000⟩)
        (some scenarioSettings) ≠ createEmptyBreakdown "USD" := by
  have hfp : (calculatePrice (some scenarioMetrics) (some ⟨nan, num 50, num 3000⟩)
      (some scenarioSettings)).finalPrice = nan := by
    norm_num [calculatePrice, scenarioMetrics, scenarioSettings, jtruthy_num,
      jadd_num, jmul_num, jgt_num, jlt_num, jdiv_num, jmax, jadd, jmul, jlt]
  refine ⟨hfp, fun hEq => ?_⟩
  rw [hEq] at hfp
  exact absurd hfp (by simp [createEmptyBreakdown])

/-- C3 amended: a missing (`null`/`undefined`) metrics, pricingEntry or
settings argument yields the well-defined empty all-zeros breakdown
(with `minChargeApplied = false`) rather than failing; but a `NaN`
numeric component inside a present argument propagates `NaN` into the
affected breakdown fields (here `finalPrice`) instead of degrading to
the empty breakdown. -/
theorem calculatePrice_missing_inputs_empty :
    (∀ (m : Option JsMetrics) (p : Option JsPricingEntry) (s : Option JsSettings),
      m = none ∨ p = none ∨ s = none →
      calculatePrice m p s = createEmptyBreakdown (fallbackCurrency s)) ∧
    (calculatePrice (some scenarioMetrics) (some ⟨nan, num 50, num 3000⟩)
        (some scenarioSettings)).finalPrice = nan := by
  constructor
  · intro m p s h
    rcases h with rfl | rfl | rfl
    · cases p <;> cases s <;> rfl
    · cases m <;> cases s <;> rfl
    · cases m <;> cases p <;> rfl
  · norm_num [calculatePrice, scenarioMetrics, scenarioSettings, jtruthy_num,
      jadd_num, jmul_num, jgt_num, jlt_num, jdiv_num, jmax, jadd, jmul, jlt]

/-- C3 witness: the amended theorem applied at a concrete missing
argument. -/
theorem calculatePrice_missing_inputs_empty_witness :
    calculatePrice none (some scenarioPricing) (some scenarioSettings) =
      createEmptyBreakdown (fallbackCurrency (some scenarioSettings)) :=
  calculatePrice_missing_inputs_empty.1 none (some scenarioPricing)
    (some scenarioSettings) (Or.inl rfl)

/-- C4 counterexample: on metrics with `area = 0`, `width = 2`,
`height = 3`, the effective area `calculatePrice` reports
(`details.area`) is `6 = width * height`, not the present `area` value
`0` — refuting `effectiveArea = metrics.area ?? (width * height)`. -/
theorem effectiveArea_zero_area_counterexample :
    (calculatePrice (some ⟨num 2, num 3, num 0, num 0⟩) (some ⟨num 1, num 1, num 1⟩)
        (some ⟨some (num 0), some (num 0), some "USD"⟩)).details.area = num 6 ∧
      (num 6 : JsNum) ≠ num 0 := by
  constructor
  · norm_num [calculatePrice, jtruthy_num, jmul_num]
  · simp

/-- C4 amended: the source computes `effectiveArea = metrics.area ||
(width * height)` under JS truthiness, not `??`: a present nonzero
(and non-`NaN`) `area` is used as is, but an `area` of `0` or `NaN`
falls back to the bounding-box product `width * height`. -/
theorem effectiveArea_truthiness :
    ∀ (w h tl a : ℚ) (p : JsPricingEntry) (s : JsSettings),
      (a ≠ 0 →
        (calculatePrice (some ⟨num w, num h, num tl, num a⟩) (some p)
          (some s)).details.area = num a) ∧
      (calculatePrice (some ⟨num w, num h, num tl, num 0⟩) (some p)
          (some s)).details.area = num (w * h) ∧
      (calculatePrice (some ⟨num w, num h, num tl, nan⟩) (some p)
          (some s)).details.area = num (w * h) := by
  intro w h tl a p s
  refine ⟨fun ha => ?_, ?_, ?_⟩ <;>
    simp [calculatePrice, jtruthy_num, jtruthy, jmul_num, *]

/-- C4 witness: the amended theorem applied at concrete inputs. -/
theorem effectiveArea_truthiness_witness :
    (5 : ℚ) ≠ 0 ∧
      (calculatePrice (some ⟨num 2, num 3, num 7, num 5⟩) (some scenarioPricing)
        (some scenarioSettings)).details.area = num 5 :=
  ⟨by norm_num,
    (effectiveArea_truthiness 2 3 7 5 scenarioPricing scenarioSettings).1 (by norm_num)⟩

/-! ## Claim theorems: unit conversion -/

/-- C8: for every finite numeric value and every supported unit tag
(`mm`, `in`, `mm2`, `in2`, `mm_min`, `in_min`),
`fromCanonical(toCanonical(v, u), u) = v` — exactly, since the model's
arithmetic is exact rational — and for every unit tag outside the
supported vocabulary both `toCanonical` and `fromCanonical` pass the
(finite) numeric value through unchanged. -/
theorem canonical_roundtrip_and_passthrough :
    (∀ (q : ℚ) (u : String), u ∈ supportedUnits →
      fromCanonical (toCanonical (.num (num q)) u) u = num q) ∧
    (∀ u : String, u ∉ supportedUnits →
      (∀ q : ℚ, toCanonical (.num (num q)) u = num q) ∧
      (∀ v : JsNum, fromCanonical v u = v)) := by
  constructor
  · intro q u hu
    have h254 : ((254 : ℚ) / 10) ≠ 0 := by norm_num
    have h645 : ((64516 : ℚ) / 100) ≠ 0 := by norm_num
    simp only [supportedUnits, List.mem_cons, List.mem_singleton] at hu
    rcases hu with rfl | rfl | rfl | rfl | rfl | rfl | h
    · simp [toCanonical, fromCanonical, parseFractionalInput]
    · simp [toCanonical, fromCanonical, parseFractionalInput, jmul_num, jdiv_num,
        h254, mul_div_cancel_right₀]
    · simp [toCanonical, fromCanonical, parseFractionalInput]
    · simp [toCanonical, fromCanonical, parseFractionalInput, jmul_num, jdiv_num,
        h645, div_mul_cancel₀]
    · simp [toCanonical, fromCanonical, parseFractionalInput]
    · simp [toCanonical, fromCanonical, parseFractionalInput, jmul_num, jdiv_num,
        h254, mul_div_cancel_right₀]
    · simp at h
  · intro u hu
    simp only [supportedUnits, List.mem_cons, List.mem_singleton, not_or] at hu
    obtain ⟨h1, h2, h3, h4, h5, h6, -⟩ := hu
    constructor
    · intro q
      simp [toCanonical, parseFractionalInput, h1, h2, h3, h4, h5, h6]
    · intro v
      simp [fromCanonical, h1, h2, h3, h4, h5, h6]

/-- C8 witness: the roundtrip at `v = 3`, `u = "in"`, and the
passthrough at the unknown tag `"furlong"`. -/
theorem canonical_roundtrip_and_passthrough_witness :
    ("in" ∈ supportedUnits ∧
      fromCanonical (toCanonical (.num (num 3)) "in") "in" = num 3) ∧
    ("furlong" ∉ supportedUnits ∧
      toCanonical (.num (num 3)) "furlong" = num 3) :=
  ⟨⟨by simp [supportedUnits],
      canonical_roundtrip_and_passthrough.1 3 "in" (by simp [supportedUnits])⟩,
    ⟨by simp [supportedUnits],
      (canonical_roundtrip_and_passthrough.2 "furlong" (by simp [supportedUnits])).1 3⟩⟩

/-! ## Helper lemmas for the fractional-input grammar -/

/-- A run of characters satisfying `p` followed by a rest whose head
fails `p`: `takeWhile` keeps exactly the run and `dropWhile` exactly
the rest. -/
theorem run_takeWhile_append (p : Char → Bool) (l r : List Char)
    (hl : ∀ c ∈ l, p c = true) (hr : ∀ c, r.head? = some c → p c = false) :
    (l ++ r).takeWhile p = l ∧ (l ++ r).dropWhile p = r := by
  induction l with
  | nil =>
    cases r with
    | nil => simp
    | cons c t =>
      have := hr c rfl
      simp [List.takeWhile_cons, List.dropWhile_cons, this]
  | cons a l ih =>
    have ha := hl a (List.mem_cons_self a l)
    obtain ⟨h1, h2⟩ := ih (fun c hc => hl c (List.mem_cons_of_mem _ hc))
    simp [List.takeWhile_cons, List.dropWhile_cons, ha, h1, h2]

/-- A digit is not in the `\s`-class. -/
theorem isDigit_not_space {c : Char} (h : c.isDigit = true) : jsIsSpace c = false := by
  cases hb : jsIsSpace c with
  | false => rfl
  | true =>
    exfalso
    simp only [jsIsSpace, Bool.or_eq_true, decide_eq_true_eq] at hb
    rcases hb with ((((rfl | rfl) | rfl) | rfl) | rfl) | rfl <;>
      exact absurd h (by decide)

/-- A digit is not in the `[-\s]`-class. -/
theorem isDigit_not_sep {c : Char} (h : c.isDigit = true) : isSepChar c = false := by
  cases hb : isSepChar c with
  | false => rfl
  | true =>
    exfalso
    simp only [isSepChar, Bool.or_eq_true, decide_eq_true_eq] at hb
    rcases hb with rfl | hsp
    · exact absurd h (by decide)
    · rw [isDigit_not_space h] at hsp
      exact Bool.false_ne_true hsp

/-- `trim` is the identity on a list with non-space head and last. -/
theorem jsTrim_eq_self {s : List Char}
    (h1 : ∀ c, s.head? = some c → jsIsSpace c = false)
    (h2 : ∀ c, s.getLast? = some c → jsIsSpace c = false) :
    jsTrim s = s := by
  unfold jsTrim
  have d1 : s.dropWhile jsIsSpace = s := by
    cases s with
    | nil => rfl
    | cons a t => simp [List.dropWhile_cons, h1 a rfl]
  rw [d1]
  have d2 : s.reverse.dropWhile jsIsSpace = s.reverse := by
    cases hs : s.reverse with
    | nil => rfl
    | cons a t =>
      have ha : s.getLast? = some a := by
        rw [← List.head?_reverse, hs]
        rfl
      simp [List.dropWhile_cons, h2 a ha]
  rw [d2, List.reverse_reverse]

/-- The mixed-number regex accepts `<digits><sep><digits>/<digits>`. -/
theorem matchMixed_concat (ws ns ds : List Char) (sep : Char)
    (hws : ws ≠ []) (hns : ns ≠ []) (hds : ds ≠ [])
    (hw : ∀ c ∈ ws, c.isDigit = true) (hn : ∀ c ∈ ns, c.isDigit = true)
    (hd : ∀ c ∈ ds, c.isDigit = true)
    (hsep : isSepChar sep = true) (hsd : sep.isDigit = false) :
    matchMixed (ws ++ sep :: (ns ++ '/' :: ds)) =
      some (digitsToNat ws, digitsToNat ns, digitsToNat ds) := by
  obtain ⟨n₀, ns', rfl⟩ : ∃ a t, ns = a :: t := by
    cases ns with
    | nil => exact absurd rfl hns
    | cons a t => exact ⟨a, t, rfl⟩
  have s1 := run_takeWhile_append Char.isDigit ws (sep :: (n₀ :: ns' ++ '/' :: ds)) hw
    (by intro c hc; injection hc with h; subst h; exact hsd)
  have s2 := run_takeWhile_append isSepChar [sep] (n₀ :: ns' ++ '/' :: ds)
    (by intro c hc; simp only [List.mem_singleton] at hc; subst hc; exact hsep)
    (by intro c hc; injection hc with h; subst h; exact isDigit_not_sep (hn _ (List.mem_cons_self _ _)))
  rw [List.singleton_append] at s2
  have s3 := run_takeWhile_append Char.isDigit (n₀ :: ns') ('/' :: ds)
    hn (by intro c hc; injection hc with h; subst h; decide)
  have s4 : ds.takeWhile Char.isDigit = ds := List.takeWhile_eq_self_iff.mpr hd
  have s5 : ds.dropWhile Char.isDigit = [] := List.dropWhile_eq_nil_iff.mpr hd
  simp only [matchMixed, s1.1, s1.2, s2.1, s2.2, s3.1, s3.2, s4, s5, hws,
    List.cons_ne_nil, hds, ne_eq, not_true_eq_false, or_self, if_false,
    not_false_eq_true, or_false, false_or, if_true]

/-- The mixed-number regex rejects a bare fraction
`<digits>/<digits>…` (no separator run is found). -/
theorem matchMixed_fraction_none (ns rest : List Char) (_hns : ns ≠ [])
    (hn : ∀ c ∈ ns, c.isDigit = true) :
    matchMixed (ns ++ '/' :: rest) = none := by
  have s1 := run_takeWhile_append Char.isDigit ns ('/' :: rest) hn
    (by intro c hc; injection hc with h; subst h; decide)
  have hsl : isSepChar '/' = false := by decide
  have s2 : ('/' :: rest).takeWhile isSepChar = [] := by
    simp [List.takeWhile_cons, hsl]
  simp [matchMixed, s1.1, s1.2, s2]

/-- The simple-fraction regex accepts `<digits>/<digits>`. -/
theorem matchFraction_concat (ns ds : List Char)
    (hns : ns ≠ []) (hds : ds ≠ [])
    (hn : ∀ c ∈ ns, c.isDigit = true) (hd : ∀ c ∈ ds, c.isDigit = true) :
    matchFraction (ns ++ '/' :: ds) = some (digitsToNat ns, digitsToNat ds) := by
  have s1 := run_takeWhile_append Char.isDigit ns ('/' :: ds) hn
    (by intro c hc; injection hc with h; subst h; decide)
  have s4 : ds.takeWhile Char.isDigit = ds := List.takeWhile_eq_self_iff.mpr hd
  have s5 : ds.dropWhile Char.isDigit = [] := List.dropWhile_eq_nil_iff.mpr hd
  simp [matchFraction, s1.1, s1.2, s4, s5, hns, hds]

/-- A successful mixed-number match implies the input contains `/`. -/
theorem matchMixed_mem_slash {t : List Char} {x : ℕ × ℕ × ℕ}
    (h : matchMixed t = some x) : '/' ∈ t := by
  simp only [matchMixed] at h
  split at h
  · exact absurd h (by simp)
  · split at h
    · rename_i r4 heq
      have h3 : '/' ∈ (((t.dropWhile Char.isDigit).dropWhile isSepChar).dropWhile Char.isDigit) := by
        rw [heq]
        exact List.mem_cons_self _ _
      exact (List.dropWhile_sublist _).mem
        ((List.dropWhile_sublist _).mem ((List.dropWhile_sublist _).mem h3))
    · exact absurd h (by simp)

/-- A successful simple-fraction match implies the input contains `/`. -/
theorem matchFraction_mem_slash {t : List Char} {x : ℕ × ℕ}
    (h : matchFraction t = some x) : '/' ∈ t := by
  simp only [matchFraction] at h
  split at h
  · exact absurd h (by simp)
  · split at h
    · rename_i r2 heq
      have h3 : '/' ∈ t.dropWhile Char.isDigit := by
        rw [heq]
        exact List.mem_cons_self _ _
      exact (List.dropWhile_sublist _).mem h3
    · exact absurd h (by simp)

/-! ## Claim theorems: fractional-input grammar -/

/-- C7: `parseFractionalInput` obeys the strict grammar: a mixed number
`<int><space-or-dash><int>/<int>` parses to `whole + num/den` (with a
zero denominator invalid); a simple fraction `<int>/<int>` parses to
`num/den` (zero denominator invalid); any other string containing `/`
is `NaN` without falling through to the float parse; empty or
whitespace-only strings and non-string non-number inputs are `NaN`;
every other string falls through to the standard decimal parse; and
concretely `"1/8" = 0.125`, `"1 1/4" = "1-1/4" = 1.25`, `"abc"` and
`"1/0"` are `NaN`. -/
theorem parseFractionalInput_grammar :
    (∀ (s : String) (ws ns ds : List Char) (sep : Char),
      s.data = ws ++ sep :: (ns ++ '/' :: ds) →
      ws ≠ [] → ns ≠ [] → ds ≠ [] →
      (∀ c ∈ ws, c.isDigit = true) → (∀ c ∈ ns, c.isDigit = true) →
      (∀ c ∈ ds, c.isDigit = true) → (sep = ' ' ∨ sep = '-') →
      parseFractionalInput (.str s) =
        (if digitsToNat ds = 0 then nan
          else num ((digitsToNat ws : ℚ) + (digitsToNat ns : ℚ) / (digitsToNat ds : ℚ)))) ∧
    (∀ (s : String) (ns ds : List Char),
      s.data = ns ++ '/' :: ds → ns ≠ [] → ds ≠ [] →
      (∀ c ∈ ns, c.isDigit = true) → (∀ c ∈ ds, c.isDigit = true) →
      parseFractionalInput (.str s) =
        (if digitsToNat ds = 0 then nan
          else num ((digitsToNat ns : ℚ) / (digitsToNat ds : ℚ)))) ∧
    (∀ s : String, '/' ∈ jsTrim s.data →
      matchMixed (jsTrim s.data) = none → matchFraction (jsTrim s.data) = none →
      parseFractionalInput (.str s) = nan) ∧
    (∀ s : String, jsTrim s.data = [] → parseFractionalInput (.str s) = nan) ∧
    parseFractionalInput .other = nan ∧
    (∀ s : String, jsTrim s.data ≠ [] → '/' ∉ jsTrim s.data →
      parseFractionalInput (.str s) = jsParseFloat (jsTrim s.data)) ∧
    parseFractionalInput (.str "1/8") = num (1 / 8) ∧
    parseFractionalInput (.str "1 1/4") = num (5 / 4) ∧
    parseFractionalInput (.str "1-1/4") = num (5 / 4) ∧
    parseFractionalInput (.str "abc") = nan ∧
    parseFractionalInput (.str "1/0") = nan := by
  refine ⟨?_, ?_, ?_, ?_, rfl, ?_, ?_, ?_, ?_, rfl, rfl⟩
  · intro s ws ns ds sep hdata hws hns hds hw hn hd hsep
    have hsepB : isSepChar sep = true := by
      rcases hsep with rfl | rfl <;> decide
    have hsd : sep.isDigit = false := by
      rcases hsep with rfl | rfl <;> decide
    obtain ⟨w₀, ws', rfl⟩ : ∃ a t, ws = a :: t := by
      cases ws with
      | nil => exact absurd rfl hws
      | cons a t => exact ⟨a, t, rfl⟩
    have hhead : ∀ c, ((w₀ :: ws') ++ sep :: (ns ++ '/' :: ds)).head? = some c →
        jsIsSpace c = false := by
      intro c hc
      rw [List.cons_append, List.head?_cons] at hc
      injection hc with hc
      subst hc
      exact isDigit_not_space (hw w₀ (List.mem_cons_self _ _))
    have hlast : ∀ c, ((w₀ :: ws') ++ sep :: (ns ++ '/' :: ds)).getLast? = some c →
        jsIsSpace c = false := by
      intro c hc
      have hshape : (w₀ :: ws') ++ sep :: (ns ++ '/' :: ds) =
          ((w₀ :: ws') ++ sep :: ns ++ ['/']) ++ ds := by
        simp
      rw [hshape, List.getLast?_append_of_ne_nil _ hds] at hc
      exact isDigit_not_space (hd c (List.mem_of_mem_getLast? hc))
    have htrim : jsTrim ((w₀ :: ws') ++ sep :: (ns ++ '/' :: ds)) =
        (w₀ :: ws') ++ sep :: (ns ++ '/' :: ds) := jsTrim_eq_self hhead hlast
    have hmm := matchMixed_concat (w₀ :: ws') ns ds sep hws hns hds hw hn hd hsepB hsd
    have hneNil : ¬((w₀ :: ws') ++ sep :: (ns ++ '/' :: ds) = []) := by simp
    simp only [parseFractionalInput, hdata, htrim, hmm, hneNil, if_false]
  · intro s ns ds hdata hns hds hn hd
    obtain ⟨n₀, ns', rfl⟩ : ∃ a t, ns = a :: t := by
      cases ns with
      | nil => exact absurd rfl hns
      | cons a t => exact ⟨a, t, rfl⟩
    have hhead : ∀ c, ((n₀ :: ns') ++ '/' :: ds).head? = some c →
        jsIsSpace c = false := by
      intro c hc
      rw [List.cons_append, List.head?_cons] at hc
      injection hc with hc
      subst hc
      exact isDigit_not_space (hn n₀ (List.mem_cons_self _ _))
    have hlast : ∀ c, ((n₀ :: ns') ++ '/' :: ds).getLast? = some c →
        jsIsSpace c = false := by
      intro c hc
      have hshape : (n₀ :: ns') ++ '/' :: ds = ((n₀ :: ns') ++ ['/']) ++ ds := by
        simp
      rw [hshape, List.getLast?_append_of_ne_nil _ hds] at hc
      exact isDigit_not_space (hd c (List.mem_of_mem_getLast? hc))
    have htrim : jsTrim ((n₀ :: ns') ++ '/' :: ds) = (n₀ :: ns') ++ '/' :: ds :=
      jsTrim_eq_self hhead hlast
    have hmm := matchMixed_fraction_none (n₀ :: ns') ds hns hn
    have hfr := matchFraction_concat (n₀ :: ns') ds hns hds hn hd
    have hneNil : ¬((n₀ :: ns') ++ '/' :: ds = []) := by simp
    simp only [parseFractionalInput, hdata, htrim, hmm, hfr, hneNil, if_false]
  · intro s hslash hmmix hfrac
    have hne : ¬(jsTrim s.data = []) := by
      intro h
      rw [h] at hslash
      exact absurd hslash (List.not_mem_nil _)
    have hcont : (jsTrim s.data).contains '/' = true := List.elem_iff.mpr hslash
    simp [parseFractionalInput, hmmix, hfrac, hne, hcont]
    intro h
    exact absurd hslash h
  · intro s h
    simp [parseFractionalInput, h]
  · intro s hne hnot
    have hmm : matchMixed (jsTrim s.data) = none := by
      cases h : matchMixed (jsTrim s.data) with
      | none => rfl
      | some x => exact absurd (matchMixed_mem_slash h) hnot
    have hfr : matchFraction (jsTrim s.data) = none := by
      cases h : matchFraction (jsTrim s.data) with
      | none => rfl
      | some x => exact absurd (matchFraction_mem_slash h) hnot
    have hcont : ¬((jsTrim s.data).contains '/' = true) := fun hc =>
      absurd (List.elem_iff.mp hc) hnot
    simp [parseFractionalInput, hmm, hfr, hne, hcont]
    intro h
    exact absurd h hnot
  · rw [show parseFractionalInput (.str "1/8") =
      num (((1 : ℕ) : ℚ) / ((8 : ℕ) : ℚ)) from rfl]
    norm_num
  · rw [show parseFractionalInput (.str "1 1/4") =
      num (((1 : ℕ) : ℚ) + ((1 : ℕ) : ℚ) / ((4 : ℕ) : ℚ)) from rfl]
    norm_num
  · rw [show parseFractionalInput (.str "1-1/4") =
      num (((1 : ℕ) : ℚ) + ((1 : ℕ) : ℚ) / ((4 : ℕ) : ℚ)) from rfl]
    norm_num

/-- C7 witness: the mixed-number clause of the grammar theorem applied
at the concrete string `"1 1/4"`. -/
theorem parseFractionalInput_grammar_witness :
    "1 1/4".data = ['1'] ++ ' ' :: (['1'] ++ '/' :: ['4']) ∧
      parseFractionalInput (.str "1 1/4") =
        (if digitsToNat ['4'] = 0 then nan
          else num ((digitsToNat ['1'] : ℚ) + (digitsToNat ['1'] : ℚ) /
            (digitsToNat ['4'] : ℚ))) :=
  ⟨rfl, parseFractionalInput_grammar.1 "1 1/4" ['1'] ['1'] ['4'] ' ' rfl
    (by decide) (by decide) (by decide) (by decide) (by decide) (by decide)
    (Or.inl rfl)⟩

/-! ## Claim theorems: geometry extractor -/

/-- The entity loop ignores entities the dispatcher skips. -/
theorem foldl_dxfStep_skip (l : List RawEntity)
    (acc : List ProcessedEntity × ℝ × Option Bounds)
    (h : ∀ e ∈ l, processEntity e = none) : l.foldl dxfStep acc = acc := by
  induction l generalizing acc with
  | nil => rfl
  | cons e t ih =>
    rw [List.foldl_cons,
      show dxfStep acc e = acc from by simp [dxfStep, h e (List.mem_cons_self _ _)]]
    exact ih acc (fun x hx => h x (List.mem_cons_of_mem _ hx))

/-- C2: `parseDxf` fails exactly when the raw CAD text cannot be parsed
(the external parser threw) or the parsed document carries no entity
table (including a null document); on every other input it returns a
result; and an entity the dispatcher cannot process — an unrecognized
type, or a polyline/spline with fewer than 2 vertices/control points —
is silently skipped: removing it from the entity list leaves the entire
aggregation result unchanged. -/
theorem parseDxf_error_iff_and_skip :
    (∀ o : ParseOutcome,
      (∃ m, parseDxf o = .error m) ↔
        ((∃ m, o = .parseError m) ∨ o = .parsed none ∨
          ∃ d, o = .parsed (some d) ∧ d.entities = none)) ∧
    (∀ (l₁ l₂ : List RawEntity) (e : RawEntity), processEntity e = none →
      parseDxfEntities (l₁ ++ e :: l₂) = parseDxfEntities (l₁ ++ l₂)) ∧
    (∀ e : RawEntity,
      e.type ∉ (["LINE", "CIRCLE", "ARC", "POLYLINE", "LWPOLYLINE", "SPLINE"] : List String) →
      processEntity e = none) ∧
    (∀ e : RawEntity, (e.type = "POLYLINE" ∨ e.type = "LWPOLYLINE") →
      (e.vertices.getD []).length < 2 → processEntity e = none) ∧
    (∀ e : RawEntity, e.type = "SPLINE" → (e.controlPoints.getD []).length < 2 →
      processEntity e = none) := by
  refine ⟨?_, ?_, ?_, ?_, ?_⟩
  · intro o
    cases o with
    | parseError m => simp [parseDxf]
    | parsed d =>
      cases d with
      | none => simp [parseDxf]
      | some doc =>
        obtain ⟨ents⟩ := doc
        cases ents with
        | none => simp [parseDxf]
        | some l => simp [parseDxf]
  · intro l₁ l₂ e he
    unfold parseDxfEntities
    rw [List.foldl_append, List.foldl_append, List.foldl_cons,
      show dxfStep (l₁.foldl dxfStep ([], 0, none)) e = l₁.foldl dxfStep ([], 0, none)
        from by simp [dxfStep, he]]
  · intro e he
    simp only [List.mem_cons, List.mem_singleton, not_or] at he
    obtain ⟨h1, h2, h3, h4, h5, h6⟩ := he
    simp [processEntity, h1, h2, h3, h4, h5, h6]
  · intro e hty hlen
    have hp : processPolyline e = none := by
      unfold processPolyline
      rw [if_pos hlen]
    rcases hty with h | h <;> simp [processEntity, h, hp]
  · intro e hty hlen
    have hp : processSpline e = none := by
      unfold processSpline
      rw [if_pos hlen]
    simp [processEntity, hty, hp]

/-- C2 witness: the skip clause applied to a concrete `TEXT` entity. -/
theorem parseDxf_error_iff_and_skip_witness :
    processEntity textEnt = none ∧
      parseDxfEntities ([] ++ textEnt :: []) = parseDxfEntities ([] ++ []) :=
  ⟨by simp [processEntity, textEnt],
    parseDxf_error_iff_and_skip.2.1 [] [] textEnt (by simp [processEntity, textEnt])⟩

/-- C9: every entity that reaches the aggregate carries at least 2
points (raw entities that cannot produce 2 points are discarded by the
dispatcher, never emitted); and when every entity is skipped — in
particular when none produced any point — the bounds collapse to
all-zero and width, height, area, totalLength and entityCount are all
exactly `0`. -/
theorem processed_points_and_empty_aggregate :
    (∀ (e : RawEntity) (p : ProcessedEntity), processEntity e = some p →
      2 ≤ p.points.length) ∧
    (∀ entities : List RawEntity, (∀ e ∈ entities, processEntity e = none) →
      parseDxfEntities entities = ([], ⟨0, 0, 0, 0, ⟨0, 0, 0, 0⟩, 0⟩)) := by
  constructor
  · intro e p hp
    unfold processEntity at hp
    split_ifs at hp with h1 h2 h3 h4 h5
    · injection hp with hp
      subst hp
      simp [processLine]
    · injection hp with hp
      subst hp
      have hc : (processCircle e).points.length = 65 := by
        simp only [processCircle, List.length_map, List.length_range]
      omega
    · injection hp with hp
      subst hp
      simp only [processArc, List.length_map, List.length_range]
      exact le_trans (by norm_num) (Nat.add_le_add_right (le_max_left _ _) 1)
    · simp only [processPolyline] at hp
      split_ifs at hp with hlen hs
      · injection hp with hp
        subst hp
        simp only [List.length_append, List.length_map, List.length_cons,
          List.length_nil]
        omega
      · injection hp with hp
        subst hp
        simp only [List.length_map]
        omega
    · simp only [processSpline] at hp
      split_ifs at hp with hlen
      · injection hp with hp
        subst hp
        simp only [List.length_map]
        omega
  · intro entities hall
    unfold parseDxfEntities
    rw [foldl_dxfStep_skip entities ([], 0, none) hall]
    norm_num

/-- C9 witness: the invariant applied to a concrete line entity, and
the zero-entity collapse at the empty entity list. -/
theorem processed_points_and_empty_aggregate_witness :
    (processEntity (lineEntV ⟨0, 0⟩ ⟨1, 0⟩) = some (processLine (lineEntV ⟨0, 0⟩ ⟨1, 0⟩)) ∧
      2 ≤ (processLine (lineEntV ⟨0, 0⟩ ⟨1, 0⟩)).points.length) ∧
      parseDxfEntities [] = ([], ⟨0, 0, 0, 0, ⟨0, 0, 0, 0⟩, 0⟩) :=
  ⟨⟨by simp [processEntity, lineEntV],
      processed_points_and_empty_aggregate.1 (lineEntV ⟨0, 0⟩ ⟨1, 0⟩)
        (processLine (lineEntV ⟨0, 0⟩ ⟨1, 0⟩)) (by simp [processEntity, lineEntV])⟩,
    processed_points_and_empty_aggregate.2 [] (fun e h => absurd h (List.not_mem_nil e))⟩

/-- C10: every successful `parseDxf` result has
`metrics.area = metrics.width * metrics.height` with
`width = maxX - minX` and `height = maxY - minY` of the aggregated
bounds: the extractor's "precomputed" area is always exactly the
bounding-box area. -/
theorem parseDxf_area_eq_bbox :
    ∀ (o : ParseOutcome) (r : ParsedDxf), parseDxf o = .ok r →
      r.metrics.area = r.metrics.width * r.metrics.height ∧
      r.metrics.width = r.metrics.bounds.maxX - r.metrics.bounds.minX ∧
      r.metrics.height = r.metrics.bounds.maxY - r.metrics.bounds.minY := by
  intro o r h
  cases o with
  | parseError m => exact absurd h (by simp [parseDxf])
  | parsed d =>
    cases d with
    | none => exact absurd h (by simp [parseDxf])
    | some doc =>
      obtain ⟨ents⟩ := doc
      cases ents with
      | none => exact absurd h (by simp [parseDxf])
      | some l =>
        simp only [parseDxf] at h
        injection h with h
        subst h
        exact ⟨rfl, rfl, rfl⟩

/-- C10 witness: the invariant applied to the parse of an empty entity
table. -/
theorem parseDxf_area_eq_bbox_witness :
    parseDxf (.parsed (some ⟨some []⟩)) =
      .ok ⟨(parseDxfEntities []).1, (parseDxfEntities []).2, ⟨some []⟩⟩ ∧
      (parseDxfEntities []).2.area =
        (parseDxfEntities []).2.width * (parseDxfEntities []).2.height :=
  ⟨rfl,
    (parseDxf_area_eq_bbox (.parsed (some ⟨some []⟩))
      ⟨(parseDxfEntities []).1, (parseDxfEntities []).2, ⟨some []⟩⟩ rfl).1⟩

/-! ## Helper lemmas for the geometry length theorems -/

/-- `x || 0` is the identity on present real numbers. -/
theorem jsOrReal_zero (x : ℝ) : jsOrReal x 0 = x := by
  unfold jsOrReal
  split
  · rename_i h
    exact h.symm
  · rfl

/-- The per-vertex `{x: v.x || 0, y: v.y || 0}` normalization is the
identity on a list of present points. -/
theorem map_jsOr_id (vs : List Pt) :
    vs.map (fun v => (⟨jsOrReal v.x 0, jsOrReal v.y 0⟩ : Pt)) = vs := by
  induction vs with
  | nil => rfl
  | cons v t ih => simp [jsOrReal_zero, ih]

/-- The polyline length loop is the sum of the consecutive distances. -/
theorem pathLength_zipWith (l : List Pt) :
    pathLength l = (List.zipWith distance l l.tail).sum := by
  induction l with
  | nil => simp [pathLength]
  | cons p t ih =>
    cases t with
    | nil => simp [pathLength]
    | cons q rest =>
      rw [show pathLength (p :: q :: rest) = distance p q + pathLength (q :: rest)
        from rfl, ih]
      simp

/-! ## Claim theorems: entity lengths -/

/-- C5 counterexample: an arc with `startAngle = 0` and `endAngle = 0`
has length `2π`, not `1 * ((0 - 0) normalized) = 0` as the claim
computes — the source replaces a falsy `endAngle` of `0` by `360`. -/
theorem processArc_zero_endAngle_counterexample :
    (processArc (arcEnt ⟨0, 0⟩ 1 0 0)).length = 2 * Real.pi ∧
      (processArc (arcEnt ⟨0, 0⟩ 1 0 0)).length ≠ 0 := by
  have hπ : (0 : ℝ) < Real.pi := Real.pi_pos
  have hlen : (processArc (arcEnt ⟨0, 0⟩ 1 0 0)).length = 2 * Real.pi := by
    simp only [processArc, arcEnt, jsOrOpt, jsOrReal]
    norm_num
    rw [if_neg (by push_neg; positivity)]
    ring
  refine ⟨hlen, ?_⟩
  rw [hlen]
  positivity

/-- C5 amended: circle length is exactly `2πr` and line length is the
Euclidean endpoint distance, as claimed; arc length is
`radius * sweep` where the sweep converts degree angles with a missing
or zero `endAngle` standing for `360` and a missing `startAngle` for
`0`, and adds `2π` once when the difference is negative — and for
angles within `[0°, 360°]` that sweep lies in `[0, 2π]` (the claim's
half-open `[0, 2π)` is only violated at full turns). -/
theorem entity_length_closed_forms :
    (∀ (c : Pt) (r : ℝ), (processCircle (circleEnt c r)).length = 2 * Real.pi * r) ∧
    (∀ (c : Pt) (r sa ea : ℝ),
      (processArc (arcEnt c r sa ea)).length = r * arcSweep sa ea) ∧
    (∀ sa ea : ℝ, 0 ≤ sa → sa ≤ 360 → 0 ≤ ea → ea ≤ 360 →
      0 ≤ arcSweep sa ea ∧ arcSweep sa ea ≤ 2 * Real.pi) ∧
    (∀ p q : Pt, (processLine (lineEntV p q)).length =
      Real.sqrt ((q.x - p.x) * (q.x - p.x) + (q.y - p.y) * (q.y - p.y))) ∧
    (∀ p q : Pt, (processLine (lineEntSE p q)).length =
      Real.sqrt ((q.x - p.x) * (q.x - p.x) + (q.y - p.y) * (q.y - p.y))) := by
  refine ⟨?_, ?_, ?_, ?_, ?_⟩
  · intro c r
    simp only [processCircle, circleEnt, jsOrOpt, jsOrReal_zero]
  · intro c r sa ea
    simp only [processArc, arcEnt, jsOrOpt, jsOrReal_zero, arcSweep]
    simp only [jsOrReal]
  · intro sa ea hsa0 hsa360 hea0 hea360
    have hπ : (0 : ℝ) < Real.pi := Real.pi_pos
    have hc : (0 : ℝ) < Real.pi / 180 := by positivity
    have hsaC0 : 0 ≤ sa * (Real.pi / 180) := mul_nonneg hsa0 hc.le
    have hsaC : sa * (Real.pi / 180) ≤ 2 * Real.pi := by
      have := mul_le_mul_of_nonneg_right hsa360 hc.le
      linarith
    have heaC0 : 0 ≤ ea * (Real.pi / 180) := mul_nonneg hea0 hc.le
    have heaC : ea * (Real.pi / 180) ≤ 2 * Real.pi := by
      have := mul_le_mul_of_nonneg_right hea360 hc.le
      linarith
    simp only [arcSweep]
    by_cases h0 : ea = 0
    · rw [if_pos h0, if_neg (by push_neg; linarith)]
      constructor
      · linarith
      · linarith
    · rw [if_neg h0]
      split_ifs with hneg
      · exact ⟨by linarith, by linarith⟩
      · exact ⟨by linarith, by linarith⟩
  · intro p q
    simp only [processLine, lineEntV, distance, Option.bind_eq_bind]
    rfl
  · intro p q
    simp only [processLine, lineEntSE, distance, Option.bind_eq_bind]
    rfl

/-- C5 witness: the amended theorem applied at a circle of radius 2 and
at the sweep of an arc from `0°` to `90°`. -/
theorem entity_length_closed_forms_witness :
    (processCircle (circleEnt ⟨0, 0⟩ 2)).length = 2 * Real.pi * 2 ∧
      (0 ≤ arcSweep 0 90 ∧ arcSweep 0 90 ≤ 2 * Real.pi) :=
  ⟨entity_length_closed_forms.1 ⟨0, 0⟩ 2,
    entity_length_closed_forms.2.2.1 0 90 (by norm_num) (by norm_num) (by norm_num)
      (by norm_num)⟩

/-- C6: a polyline with at least 2 vertices: open, its length is the
sum of consecutive Euclidean distances and its point sequence is the
vertex list unchanged; closed, the distance from the last vertex back
to the first is added and the point sequence gains a final point equal
to the first.  Concretely, `[(0,0),(10,0),(10,10)]` has length `20`
open and `20 + √200` closed. -/
theorem processPolyline_length_and_points :
    (∀ vs : List Pt, 2 ≤ vs.length →
      processPolyline (polyEnt vs false) =
        some ⟨"POLYLINE", vs, (List.zipWith distance vs vs.tail).sum,
          none, none, none, none, false⟩) ∧
    (∀ vs : List Pt, 2 ≤ vs.length →
      processPolyline (polyEnt vs true) =
        some ⟨"POLYLINE", vs ++ [vs.headI],
          (List.zipWith distance vs vs.tail).sum +
            distance (vs.getLast?.getD ⟨0, 0⟩) vs.headI,
          none, none, none, none, true⟩ ∧
      (vs ++ [vs.headI]).getLast? = some vs.headI ∧ vs.head? = some vs.headI) ∧
    processPolyline (polyEnt samplePolyVertices false) =
      some ⟨"POLYLINE", samplePolyVertices, 20, none, none, none, none, false⟩ ∧
    processPolyline (polyEnt samplePolyVertices true) =
      some ⟨"POLYLINE", samplePolyVertices ++ [⟨0, 0⟩], 20 + Real.sqrt 200,
        none, none, none, none, true⟩ := by
  have hopen : ∀ vs : List Pt, 2 ≤ vs.length →
      processPolyline (polyEnt vs false) =
        some ⟨"POLYLINE", vs, (List.zipWith distance vs vs.tail).sum,
          none, none, none, none, false⟩ := by
    intro vs h2
    have hnot : ¬(vs.length < 2) := by omega
    simp only [processPolyline, polyEnt, Option.getD, hnot, if_false, map_jsOr_id,
      pathLength_zipWith, Bool.false_eq_true]
  have hclosed : ∀ vs : List Pt, 2 ≤ vs.length →
      processPolyline (polyEnt vs true) =
        some ⟨"POLYLINE", vs ++ [vs.headI],
          (List.zipWith distance vs vs.tail).sum +
            distance (vs.getLast?.getD ⟨0, 0⟩) vs.headI,
          none, none, none, none, true⟩ := by
    intro vs h2
    have hnot : ¬(vs.length < 2) := by omega
    simp only [processPolyline, polyEnt, Option.getD, hnot, if_false, map_jsOr_id,
      pathLength_zipWith, if_true]
  have hs100 : Real.sqrt 100 = 10 := by
    rw [show (100 : ℝ) = 10 ^ 2 by norm_num]
    exact Real.sqrt_sq (by norm_num)
  have d1 : distance ⟨0, 0⟩ ⟨10, 0⟩ = 10 := by
    unfold distance
    norm_num [hs100]
  have d2 : distance ⟨10, 0⟩ ⟨10, 10⟩ = 10 := by
    unfold distance
    norm_num [hs100]
  have d3 : distance ⟨10, 10⟩ ⟨0, 0⟩ = Real.sqrt 200 := by
    unfold distance
    norm_num
  refine ⟨hopen, ?_, ?_, ?_⟩
  · intro vs h2
    refine ⟨hclosed vs h2, List.getLast?_concat _, ?_⟩
    cases vs with
    | nil => simp at h2
    | cons v t => rfl
  · rw [hopen samplePolyVertices (by norm_num [samplePolyVertices])]
    simp only [samplePolyVertices, List.zipWith, List.sum_cons, List.sum_nil, d1, d2]
    norm_num
  · rw [hclosed samplePolyVertices (by norm_num [samplePolyVertices])]
    simp only [samplePolyVertices, List.zipWith, List.sum_cons, List.sum_nil, d1, d2]
    norm_num [d3]

/-- C6 witness: the open and closed clauses applied to the concrete
scenario vertices. -/
theorem processPolyline_length_and_points_witness :
    2 ≤ samplePolyVertices.length ∧
      processPolyline (polyEnt samplePolyVertices false) =
        some ⟨"POLYLINE", samplePolyVertices,
          (List.zipWith distance samplePolyVertices samplePolyVertices.tail).sum,
          none, none, none, none, false⟩ :=
  ⟨by norm_num [samplePolyVertices],
    processPolyline_length_and_points.1 samplePolyVertices
      (by norm_num [samplePolyVertices])⟩
